import Mathlib

/-
Verification development for the GraphQL request parsing core of the msw
repository (src/utils/internal/parseGraphQLRequest.ts) and the Response
Patcher interface described in the specification.

The TypeScript code is shallowly embedded: JavaScript runtime values are
modelled by the inductive type JsValue, thrown exceptions by the error
side of Except JsError, and the console.error diagnostics emitted by
parseGraphQLRequest by an explicit list of log strings in its result.
-/

namespace Msw

/-- A JSON-like JavaScript runtime value. Objects are insertion-ordered
association lists of own enumerable properties; file attachments carried in
a multipart body are represented by the file constructor, identified by a
tag string that stands for the file name. The builtin constructor models a
member inherited from a standard prototype (for example
Object.prototype.toString), a value outside the JSON data model,
identified by its property name: reading an inherited name through the
prototype chain yields such a value. -/
inductive JsValue where
  | null
  | bool (b : Bool)
  | num (n : Int)
  | str (s : String)
  | file (tag : String)
  | obj (fields : List (String × JsValue))
  | arr (elems : List JsValue)
  | builtin (name : String)

/-- A thrown JavaScript exception: error models an explicit throw of
new Error(message), typeError a TypeError raised by the language semantics
(for example using the in operator on a primitive), and rangeError a
RangeError (for example an invalid array length). -/
inductive JsError where
  | error (message : String)
  | typeError (message : String)
  | rangeError (message : String)
deriving DecidableEq

/-- Single quote character, used to build the exact error-message strings of
the source without apostrophes in literals. -/
def sq : String := Char.toString (Char.ofNat 39)

/-- Double quote character. -/
def dq : String := Char.toString (Char.ofNat 34)

/-- JavaScript truthiness of a value. -/
def jsTruthy : JsValue → Bool
  | JsValue.null => false
  | JsValue.bool b => b
  | JsValue.num n => !(n == 0)
  | JsValue.str s => !(s == "")
  | JsValue.file _ => true
  | JsValue.obj _ => true
  | JsValue.arr _ => true
  | JsValue.builtin _ => true

/-- Truthiness of an optional value; a missing property (undefined) is falsy. -/
def jsTruthyOpt : Option JsValue → Bool
  | none => false
  | some v => jsTruthy v

/-- First value bound to a key in an association list (JS own-property read
on a plain object built without duplicate keys). -/
def objGet : List (String × JsValue) → String → Option JsValue
  | [], _ => none
  | (k, v) :: rest, q => if k == q then some v else objGet rest q

/-- Write a key on an association list: an existing key keeps its position
and gets the new value, a new key is appended (JS property write order). -/
def objSet : List (String × JsValue) → String → JsValue → List (String × JsValue)
  | [], k, v => [(k, v)]
  | (k2, v2) :: rest, k, v =>
      if k2 == k then (k2, v) :: rest else (k2, v2) :: objSet rest k v

/-- Decimal value of a digit list. -/
def digitsToNat (cs : List Char) : Nat :=
  cs.foldl (fun a c => a * 10 + (c.toNat - 48)) 0

/-- Whether a string is a canonical array-index key (a decimal numeral with
no leading zero), as used by JS property access on arrays. -/
def isArrayIndexKey (k : String) : Bool :=
  !k.data.isEmpty && k.data.all Char.isDigit
    && (k.data.length == 1 || !(k.data.headD ' ' == '0'))

/-- Array-index value of a key, defaulting to 0. -/
def keyNumVal (k : String) : Nat := digitsToNat k.data

/-- The own property names of Object.prototype, inherited by every plain
object (object literals, rest-spread results and JSON.parse output), so the
in operator answers true for them on any such object. -/
def objectPrototypeKeys : List String :=
  ["constructor", "hasOwnProperty", "isPrototypeOf", "propertyIsEnumerable",
   "toLocaleString", "toString", "valueOf",
   "__defineGetter__", "__defineSetter__", "__lookupGetter__", "__lookupSetter__",
   "__proto__"]

/-- The standard method names of Array.prototype (through ES2022), followed
by the Object.prototype names further up the chain. -/
def arrayPrototypeKeys : List String :=
  ["at", "concat", "copyWithin", "entries", "every", "fill", "filter", "find",
   "findIndex", "findLast", "findLastIndex", "flat", "flatMap", "forEach",
   "includes", "indexOf", "join", "keys", "lastIndexOf", "map", "pop", "push",
   "reduce", "reduceRight", "reverse", "shift", "slice", "some", "sort",
   "splice", "unshift", "values", "length"] ++ objectPrototypeKeys

/-- The property names visible on a built-in function through its own
length and name and the Function.prototype and Object.prototype chain. -/
def functionPrototypeKeys : List String :=
  ["length", "name", "apply", "arguments", "bind", "call", "caller"]
    ++ objectPrototypeKeys

/-- The property names visible on a File object through the File and Blob
prototypes and Object.prototype. -/
def filePrototypeKeys : List String :=
  ["name", "lastModified", "webkitRelativePath", "size", "type",
   "arrayBuffer", "slice", "stream", "text"] ++ objectPrototypeKeys

/-- Property read (target[key]). Objects answer an own key with its value
and a name inherited from Object.prototype with that built-in member;
arrays answer canonical indices, length and their inherited methods;
strings answer indices and length. Member values of built-in functions
(apart from their name) and the non-method File members other than the name
are outside the modelled fragment and read as absent; the source only reads
the fixed body keys (query, operations, map, variables) on unvalidated
values, and none of those name such members. -/
def jsGetProp : JsValue → String → Option JsValue
  | JsValue.obj fs, k =>
      (match objGet fs k with
       | some v => some v
       | none => if objectPrototypeKeys.contains k then some (JsValue.builtin k) else none)
  | JsValue.arr l, k =>
      if isArrayIndexKey k then
        (if keyNumVal k < l.length then some (l.getD (keyNumVal k) JsValue.null) else none)
      else if k == "length" then some (JsValue.num (Int.ofNat l.length))
      else if arrayPrototypeKeys.contains k then some (JsValue.builtin k)
      else none
  | JsValue.str s, k =>
      if isArrayIndexKey k then
        (if keyNumVal k < s.data.length then
          some (JsValue.str (Char.toString (s.data.getD (keyNumVal k) ' '))) else none)
      else if k == "length" then some (JsValue.num (Int.ofNat s.data.length))
      else none
  | JsValue.file t, k =>
      if k == "name" then some (JsValue.str t)
      else if (["arrayBuffer", "slice", "stream", "text"] ++ objectPrototypeKeys).contains k then
        some (JsValue.builtin k)
      else none
  | JsValue.builtin nm, k => if k == "name" then some (JsValue.str nm) else none
  | _, _ => none

/-- The in operator (key in target). It searches the whole prototype chain:
on a plain object a name inherited from Object.prototype answers true even
with no own key, on an array the indices, length and the inherited methods
answer true, and files and built-in functions answer their prototype
members. Applying it to a primitive is a TypeError, as in JavaScript. -/
def jsHasProp : JsValue → String → Except JsError Bool
  | JsValue.obj fs, k =>
      Except.ok ((objGet fs k).isSome || objectPrototypeKeys.contains k)
  | JsValue.arr l, k =>
      Except.ok ((isArrayIndexKey k && decide (keyNumVal k < l.length))
        || arrayPrototypeKeys.contains k)
  | JsValue.file _, k => Except.ok (filePrototypeKeys.contains k)
  | JsValue.builtin _, k => Except.ok (functionPrototypeKeys.contains k)
  | _, _ => Except.error (JsError.typeError "Cannot use the in operator to search for a property in a non-object value.")

/-- Property write (target[key] = v). Writing to a primitive is a TypeError
in strict mode. On objects the write stores the own key; for the inherited
accessor name proto this models the value subsequently read back at that
key, though the real write goes through the Object.prototype setter. On
arrays an in-bounds index is set, an out-of-bounds index pads with null
(real holes read as undefined), a length write resizes or raises the
RangeError of an invalid length, and an own non-index property, like any
own property written on a File object or a built-in function, lies outside
the modelled state and the write is absorbed; writing a getter-only File
member (name, size and the other metadata accessors) is a TypeError in
strict mode. -/
def jsSetProp : JsValue → String → JsValue → Except JsError JsValue
  | JsValue.obj fs, k, v => Except.ok (JsValue.obj (objSet fs k v))
  | JsValue.arr l, k, v =>
      if isArrayIndexKey k then
        (if keyNumVal k < l.length then Except.ok (JsValue.arr (l.set (keyNumVal k) v))
         else Except.ok (JsValue.arr (l ++ List.replicate (keyNumVal k - l.length) JsValue.null ++ [v])))
      else if k == "length" then
        (match v with
         | JsValue.num n =>
            if n < 0 then Except.error (JsError.rangeError "Invalid array length")
            else Except.ok (JsValue.arr (l.take n.toNat ++ List.replicate (n.toNat - l.length) JsValue.null))
         | _ => Except.error (JsError.rangeError "Invalid array length"))
      else Except.ok (JsValue.arr l)
  | JsValue.file t, k, _ =>
      if (["name", "lastModified", "webkitRelativePath", "size", "type"] : List String).contains k then
        Except.error (JsError.typeError ("Cannot set property " ++ k ++ " of File which has only a getter."))
      else Except.ok (JsValue.file t)
  | JsValue.builtin nm, _, _ => Except.ok (JsValue.builtin nm)
  | _, _, _ => Except.error (JsError.typeError "Cannot create a property on a primitive value.")

/-- Stable insertion of an entry into a list that is ascending by
array-index value, used to model JS integer-key enumeration order. -/
def insertNumEntry (e : String × JsValue) : List (String × JsValue) → List (String × JsValue)
  | [] => [e]
  | x :: xs => if keyNumVal e.1 < keyNumVal x.1 then e :: x :: xs else x :: insertNumEntry e xs

/-- Stable sort by array-index value. -/
def sortNumEntries (l : List (String × JsValue)) : List (String × JsValue) :=
  l.foldl (fun acc e => insertNumEntry e acc) []

/-- Indexed entries of a list, keys rendered as decimal strings. -/
def listEnumFrom : Nat → List JsValue → List (String × JsValue)
  | _, [] => []
  | i, x :: xs => (toString i, x) :: listEnumFrom (i + 1) xs

/-- Indexed entries of a string, one single-character string per position. -/
def stringEnumFrom : Nat → List Char → List (String × JsValue)
  | _, [] => []
  | i, c :: cs => (toString i, JsValue.str (Char.toString c)) :: stringEnumFrom (i + 1) cs

/-- Object.entries: own enumerable entries in JS enumeration order
(canonical integer keys ascending first, then string keys in insertion
order); arrays and strings enumerate by index, primitives have none. -/
def jsEntries : JsValue → List (String × JsValue)
  | JsValue.obj fs =>
      sortNumEntries (fs.filter (fun e => isArrayIndexKey e.1))
        ++ fs.filter (fun e => !(isArrayIndexKey e.1))
  | JsValue.arr l => listEnumFrom 0 l
  | JsValue.str s => stringEnumFrom 0 s.data
  | _ => []

mutual
/-- JS String() coercion restricted to the JsValue grammar. -/
def jsToString : JsValue → String
  | JsValue.null => "null"
  | JsValue.bool b => cond b "true" "false"
  | JsValue.num n => toString n
  | JsValue.str s => s
  | JsValue.file _ => "[object File]"
  | JsValue.obj _ => "[object Object]"
  | JsValue.arr l => jsToStringList l
  | JsValue.builtin nm => "function " ++ nm ++ "() \x7b [native code] \x7d"

/-- Comma join of array elements for the array String() coercion. -/
def jsToStringList : List JsValue → String
  | [] => ""
  | [x] => jsToString x
  | x :: xs => jsToString x ++ "," ++ jsToStringList xs
end

/-- Opening brace character. -/
def lbChar : Char := Char.ofNat 123

/-- Closing brace character. -/
def rbChar : Char := Char.ofNat 125

/-- Double quote character. -/
def quoteChar : Char := Char.ofNat 34

/-- Backslash character. -/
def backslashChar : Char := Char.ofNat 92

/-- Drop JSON whitespace. -/
def jsonWs (cs : List Char) : List Char :=
  cs.dropWhile (fun c => c == ' ' || c == Char.ofNat 9 || c == Char.ofNat 10 || c == Char.ofNat 13)

/-- Hexadecimal digit value. -/
def hexVal (c : Char) : Option Nat :=
  if c.isDigit then some (c.toNat - 48)
  else if 97 ≤ c.toNat && c.toNat ≤ 102 then some (c.toNat - 87)
  else if 65 ≤ c.toNat && c.toNat ≤ 70 then some (c.toNat - 55)
  else none

/-- Four hexadecimal digits of a JSON unicode escape. -/
def parseHex4 : List Char → Option (Nat × List Char)
  | a :: b :: c :: d :: rest =>
      match hexVal a, hexVal b, hexVal c, hexVal d with
      | some x, some y, some z, some w => some (((x * 16 + y) * 16 + z) * 16 + w, rest)
      | _, _, _, _ => none
  | _ => none

/-- Body of a JSON string after the opening quote, with the standard escape
sequences; returns the decoded string and the input after the closing
quote. Fuel-indexed for termination, one unit per consumed character. -/
def parseJStringAux : Nat → List Char → Option (String × List Char)
  | 0, _ => none
  | Nat.succ _, [] => none
  | Nat.succ fuel, c :: cs =>
      if c == quoteChar then some ("", cs)
      else if c == backslashChar then
        match cs with
        | [] => none
        | e :: cs2 =>
          let dec : Option (String × List Char) :=
            if e == quoteChar then some (dq, cs2)
            else if e == backslashChar then some (Char.toString backslashChar, cs2)
            else if e == '/' then some ("/", cs2)
            else if e == 'n' then some (Char.toString (Char.ofNat 10), cs2)
            else if e == 't' then some (Char.toString (Char.ofNat 9), cs2)
            else if e == 'r' then some (Char.toString (Char.ofNat 13), cs2)
            else if e == 'b' then some (Char.toString (Char.ofNat 8), cs2)
            else if e == 'f' then some (Char.toString (Char.ofNat 12), cs2)
            else if e == 'u' then
              match parseHex4 cs2 with
              | some (n, cs3) => some (Char.toString (Char.ofNat n), cs3)
              | none => none
            else none
          match dec with
          | some (s, rest) =>
              match parseJStringAux fuel rest with
              | some (t, r) => some (s ++ t, r)
              | none => none
          | none => none
      else
        match parseJStringAux fuel cs with
        | some (t, r) => some (Char.toString c ++ t, r)
        | none => none

/-- Decimal digit run of a JSON integer. -/
def parseJDigits (cs : List Char) : Option (Nat × List Char) :=
  let digits := cs.takeWhile Char.isDigit
  if digits.isEmpty then none
  else
    -- JSON forbids leading zeros on multi-digit numerals.
    if digits.length > 1 && digits.getD 0 '0' == '0' then none
    else some (digits.foldl (fun acc c => acc * 10 + (c.toNat - 48)) 0, cs.dropWhile Char.isDigit)

mutual
/-- One JSON value (integer numerals; fractions and exponents are outside
the modelled grammar). Fuel-indexed for termination. -/
def parseJValue : Nat → List Char → Option (JsValue × List Char)
  | 0, _ => none
  | Nat.succ fuel, cs =>
    match jsonWs cs with
    | [] => none
    | c :: cs2 =>
      if c == lbChar then
        match jsonWs cs2 with
        | c2 :: cs3 =>
            if c2 == rbChar then some (JsValue.obj [], cs3)
            else parseJMembers fuel [] (c2 :: cs3)
        | [] => none
      else if c == '[' then
        match jsonWs cs2 with
        | c2 :: cs3 =>
            if c2 == ']' then some (JsValue.arr [], cs3)
            else parseJItems fuel [] (c2 :: cs3)
        | [] => none
      else if c == quoteChar then
        match parseJStringAux (cs2.length + 1) cs2 with
        | some (s, rest) => some (JsValue.str s, rest)
        | none => none
      else if c == 't' then
        match cs2 with
        | 'r' :: 'u' :: 'e' :: rest => some (JsValue.bool true, rest)
        | _ => none
      else if c == 'f' then
        match cs2 with
        | 'a' :: 'l' :: 's' :: 'e' :: rest => some (JsValue.bool false, rest)
        | _ => none
      else if c == 'n' then
        match cs2 with
        | 'u' :: 'l' :: 'l' :: rest => some (JsValue.null, rest)
        | _ => none
      else if c == '-' then
        match parseJDigits cs2 with
        | some (n, rest) => some (JsValue.num (-(Int.ofNat n)), rest)
        | none => none
      else if c.isDigit then
        match parseJDigits (c :: cs2) with
        | some (n, rest) => some (JsValue.num (Int.ofNat n), rest)
        | none => none
      else none

/-- Members of a JSON object after the opening brace, accumulating fields
with objSet so that a duplicate key keeps its first position and its last
value, as JSON.parse does. -/
def parseJMembers : Nat → List (String × JsValue) → List Char → Option (JsValue × List Char)
  | 0, _, _ => none
  | Nat.succ fuel, acc, cs =>
    match jsonWs cs with
    | c :: cs2 =>
        if c == quoteChar then
          match parseJStringAux (cs2.length + 1) cs2 with
          | some (k, rest) =>
              (match jsonWs rest with
               | ':' :: rest2 =>
                  (match parseJValue fuel rest2 with
                   | some (v, rest3) =>
                      (match jsonWs rest3 with
                       | ',' :: rest4 => parseJMembers fuel (objSet acc k v) rest4
                       | c4 :: rest4 =>
                          if c4 == rbChar then some (JsValue.obj (objSet acc k v), rest4) else none
                       | [] => none)
                   | none => none)
               | _ => none)
          | none => none
        else none
    | [] => none

/-- Items of a JSON array after the opening bracket. -/
def parseJItems : Nat → List JsValue → List Char → Option (JsValue × List Char)
  | 0, _, _ => none
  | Nat.succ fuel, acc, cs =>
    match parseJValue fuel cs with
    | some (v, rest) =>
        (match jsonWs rest with
         | ',' :: rest2 => parseJItems fuel (acc ++ [v]) rest2
         | ']' :: rest2 => some (JsValue.arr (acc ++ [v]), rest2)
         | _ => none)
    | none => none
end

/-- Modelled from the spec: jsonParse (src/utils/internal/jsonParse, a
repository module not present under src/) wraps JSON.parse in a try/catch
and yields undefined (none) when decoding fails. JSON.parse is modelled on
the JsValue grammar with integer numerals. -/
def jsonParse (s : String) : Option JsValue :=
  match parseJValue (2 * s.length + 4) s.data with
  | some (v, rest) => if (jsonWs rest).isEmpty then some v else none
  | none => none

/-- JSON.parse applied to an arbitrary value coerces its argument to a
string first; jsonParse as called from the extractor receives the raw body
field, which is a string in well-formed multipart bodies. -/
def jsonParseJs (v : JsValue) : Option JsValue := jsonParse (jsToString v)

/-- GraphQL operation kinds (OperationTypeNode of the graphql library). -/
inductive OperationTypeNode where
  | query
  | mutation
  | subscription
deriving DecidableEq

/-- Top-level definitions of a GraphQL executable document, keeping exactly
the data parseQuery reads: the constructor kind, the operation kind and the
optional operation name. -/
inductive DefinitionNode where
  | operationDefinition (operation : OperationTypeNode) (name : Option String)
  | fragmentDefinition (name : String)
deriving DecidableEq

/-- A parsed GraphQL document. -/
structure DocumentNode where
  definitions : List DefinitionNode
deriving DecidableEq

/-- Tokens of the modelled GraphQL grammar. -/
inductive GqlToken where
  | name (s : String)
  | lbrace
  | rbrace
deriving DecidableEq

/-- First character of a GraphQL name. -/
def isNameStart (c : Char) : Bool := c.isAlpha || c == '_'

/-- Subsequent character of a GraphQL name. -/
def isNameChar (c : Char) : Bool := c.isAlphanum || c == '_'

/-- Characters the GraphQL lexer ignores (whitespace and commas). -/
def isGqlIgnored (c : Char) : Bool :=
  c == ' ' || c == ',' || c == Char.ofNat 9 || c == Char.ofNat 10 || c == Char.ofNat 13

/-- GraphQL lexer over the modelled token set; any other character is a
syntax error (none). Fuel-indexed, one unit per consumed character. -/
def gqlTokenize : Nat → List Char → Option (List GqlToken)
  | 0, _ => none
  | Nat.succ _, [] => some []
  | Nat.succ fuel, c :: cs =>
    if isGqlIgnored c then gqlTokenize fuel cs
    else if c == lbChar then (gqlTokenize fuel cs).map (fun ts => GqlToken.lbrace :: ts)
    else if c == rbChar then (gqlTokenize fuel cs).map (fun ts => GqlToken.rbrace :: ts)
    else if isNameStart c then
      (gqlTokenize fuel (cs.dropWhile isNameChar)).map
        (fun ts => GqlToken.name (String.mk (c :: cs.takeWhile isNameChar)) :: ts)
    else none

mutual
/-- A selection set: a braced, non-empty list of fields. Returns the
remaining tokens. -/
def gqlParseSelSet : Nat → List GqlToken → Option (List GqlToken)
  | 0, _ => none
  | Nat.succ fuel, GqlToken.lbrace :: ts => gqlParseFields fuel ts false
  | Nat.succ _, _ => none

/-- Fields of a selection set up to the closing brace; the Bool records
whether at least one field has been read. Each field is a name with an
optional nested selection set (the subset of the field grammar the claims
exercise; aliases, arguments and directives are outside the model). -/
def gqlParseFields : Nat → List GqlToken → Bool → Option (List GqlToken)
  | 0, _, _ => none
  | Nat.succ _, GqlToken.rbrace :: ts, seen => if seen then some ts else none
  | Nat.succ fuel, GqlToken.name _ :: GqlToken.lbrace :: ts, _ =>
      (match gqlParseSelSet fuel (GqlToken.lbrace :: ts) with
       | some ts2 => gqlParseFields fuel ts2 true
       | none => none)
  | Nat.succ fuel, GqlToken.name _ :: ts, _ => gqlParseFields fuel ts true
  | Nat.succ _, _, _ => none
end

/-- Keyword of an operation type. -/
def gqlOpType (kw : String) : Option OperationTypeNode :=
  if kw == "query" then some OperationTypeNode.query
  else if kw == "mutation" then some OperationTypeNode.mutation
  else if kw == "subscription" then some OperationTypeNode.subscription
  else none

/-- One executable definition: an anonymous selection set, a typed
operation with an optional name, or a fragment definition. -/
def gqlParseDefinition (fuel : Nat) (ts : List GqlToken) : Option (DefinitionNode × List GqlToken) :=
  match ts with
  | GqlToken.lbrace :: _ =>
      (gqlParseSelSet fuel ts).map
        (fun r => (DefinitionNode.operationDefinition OperationTypeNode.query none, r))
  | GqlToken.name kw :: rest =>
      (match gqlOpType kw with
       | some t =>
          (match rest with
           | GqlToken.name nm :: rest2 =>
              (gqlParseSelSet fuel rest2).map
                (fun r => (DefinitionNode.operationDefinition t (some nm), r))
           | _ =>
              (gqlParseSelSet fuel rest).map
                (fun r => (DefinitionNode.operationDefinition t none, r)))
       | none =>
          if kw == "fragment" then
            match rest with
            | GqlToken.name fn :: GqlToken.name onKw :: GqlToken.name _tn :: rest2 =>
                if onKw == "on" && !(fn == "on") then
                  (gqlParseSelSet fuel rest2).map (fun r => (DefinitionNode.fragmentDefinition fn, r))
                else none
            | _ => none
          else none)
  | _ => none

/-- One or more definitions consuming the whole token stream. -/
def gqlParseDocument : Nat → List GqlToken → Option (List DefinitionNode)
  | 0, _ => none
  | Nat.succ fuel, ts =>
    match gqlParseDefinition fuel ts with
    | some (d, []) => some [d]
    | some (d, rest) => (gqlParseDocument fuel rest).map (fun ds => d :: ds)
    | none => none

/-- The graphql library parse entry point, modelled on the
executable-document subset needed by parseQuery: named and anonymous
operations and fragment definitions. A failure is returned as the message
of the syntax error the library would throw. -/
def gqlParse (query : String) : Except String DocumentNode :=
  match gqlTokenize (query.length + 1) query.data with
  | none => Except.error "Syntax Error: Invalid character."
  | some [] => Except.error "Syntax Error: Unexpected <EOF>."
  | some ts =>
    match gqlParseDocument (2 * ts.length + 4) ts with
    | some defs => Except.ok (DocumentNode.mk defs)
    | none => Except.error "Syntax Error: Unexpected token."

/-- Result of classifying a query (ParsedGraphQLQuery). The operation type
is optional because a document with no operation definition leaves
operationDef undefined in the source. -/
structure ParsedGraphQLQuery where
  operationType : Option OperationTypeNode
  operationName : Option String
deriving DecidableEq

/-- Kind test used by the find over document definitions
(def.kind === the OperationDefinition kind string). -/
def isOperationDefinition : DefinitionNode → Bool
  | DefinitionNode.operationDefinition _ _ => true
  | _ => false

/-- operationDef?.operation. -/
def defOperation : DefinitionNode → Option OperationTypeNode
  | DefinitionNode.operationDefinition t _ => some t
  | _ => none

/-- operationDef?.name?.value. -/
def defNameValue : DefinitionNode → Option String
  | DefinitionNode.operationDefinition _ nm => nm
  | _ => none

/-- parseQuery from the source: parse the query, locate the first top-level
operation definition and read its operation kind and optional name; a parse
failure is returned as an error value, not thrown. -/
def parseQuery (query : String) : Except String ParsedGraphQLQuery :=
  match gqlParse query with
  | Except.ok ast =>
      Except.ok
        (ParsedGraphQLQuery.mk
          ((ast.definitions.find? isOperationDefinition).bind defOperation)
          ((ast.definitions.find? isOperationDefinition).bind defNameValue))
  | Except.error e => Except.error e

/-- parseQuery as reached with the runtime value of the query field: the
graphql parse entry point asserts its body is a string and throws
otherwise, and that throw is caught by the try/catch of parseQuery and
returned as an error value like any syntax error. -/
def parseQueryJs : JsValue → Except String ParsedGraphQLQuery
  | JsValue.str s => parseQuery s
  | _ => Except.error "Body must be a string."

/-- The canonical intercepted request as parseGraphQLRequest consumes it:
method, the query parameters of the URL, the public URL rendering, and the
pre-parsed body. -/
structure MockedRequest where
  method : String
  searchParams : List (String × String)
  publicUrl : String
  body : Option JsValue

/-- URLSearchParams.get: first value bound to the name, or null. -/
def spGet : List (String × String) → String → Option String
  | [], _ => none
  | (k, v) :: rest, q => if k == q then some v else spGet rest q

/-- Modelled from the spec: getPublicUrlFromRequest
(src/utils/request/getPublicUrlFromRequest, a repository module not present
under src/) renders the public URL of a request for diagnostics. -/
def getPublicUrlFromRequest (request : MockedRequest) : String := request.publicUrl

/-- GraphQLInput: nullable query text and an optional vars value.
The query is kept as a runtime value because the POST branch passes the
body field through without validating its type. -/
structure GraphQLInput where
  query : Option JsValue
  vars : Option JsValue

/-- The exact message of the throw for a map key with no uploaded file. -/
def missingKeyMsg (key : String) : String :=
  "Given files do not have a key " ++ sq ++ key ++ sq ++ " ."

/-- Comma join, the JS toString of an array of strings. -/
def joinComma : List String → String
  | [] => ""
  | [s] => s
  | s :: rest => s ++ "," ++ joinComma rest

/-- The exact message of the throw for a dot-path whose non-last segments
do not all exist; the source interpolates the whole paths array, which JS
renders comma-joined. -/
def pathErrMsg (paths : List String) : String :=
  "Property " ++ sq ++ joinComma paths ++ sq ++ " is not in operations."

/-- Split of dotPath.split into the last segment and the leading segments,
via the reversed-destructuring of the source. String.splitOn never returns
an empty list, so the empty case is unreachable. -/
def splitLastSeg (segs : List String) : String × List String :=
  match segs.reverse with
  | [] => ("", [])
  | lastPath :: revPaths => (lastPath, revPaths.reverse)

/-- Split of a character list at dots, matching the JS String split with a
single-character separator: the empty string splits to one empty segment. -/
def splitDot : List Char → List String
  | [] => [""]
  | c :: cs =>
      if c == '.' then "" :: splitDot cs
      else
        match splitDot cs with
        | s :: rest => (Char.toString c ++ s) :: rest
        | [] => [Char.toString c]

/-- dotPath.split on a dot; calling split on a non-string is a TypeError. -/
def jsSplitDot : JsValue → Except JsError (List String)
  | JsValue.str s => Except.ok (splitDot s.data)
  | _ => Except.error (JsError.typeError "dotPath.split is not a function.")

/-- for..of iteration over the path list value: arrays iterate elements,
strings iterate characters, anything else is a TypeError. -/
def jsIterate : JsValue → Except JsError (List JsValue)
  | JsValue.arr l => Except.ok l
  | JsValue.str s => Except.ok (s.data.map (fun c => JsValue.str (Char.toString c)))
  | _ => Except.error (JsError.typeError "The path list value is not iterable.")

/-- The property read files[key] on the rest-spread files object, an
ordinary object with Object.prototype: an own key answers its value, and a
name inherited from Object.prototype answers that built-in member. -/
def filesGet (files : List (String × JsValue)) (key : String) : Option JsValue :=
  match objGet files key with
  | some v => some v
  | none => if objectPrototypeKeys.contains key then some (JsValue.builtin key) else none

/-- The in operator applied to the files object (key in files). Like the
source object it searches the prototype chain, so a name inherited from
Object.prototype, such as toString, answers true with no uploaded part. -/
def filesHas (files : List (String × JsValue)) (key : String) : Bool :=
  (filesGet files key).isSome

/-- Pure rendering of the in-place mutation of the child reached by
target[p] through the alias of the source walk: when p is an own key the
mutated child is a component of the parent and the parent shows the update;
when the child was inherited from a prototype, or lies outside the modelled
state, the parent is unchanged (real JS mutates the shared prototype
member). This is not itself a JS operation and never throws. -/
def jsWriteBack (target : JsValue) (p : String) (child2 : JsValue) : Except JsError JsValue :=
  match target with
  | JsValue.obj fs =>
      if (objGet fs p).isSome then Except.ok (JsValue.obj (objSet fs p child2))
      else Except.ok (JsValue.obj fs)
  | JsValue.arr l =>
      if isArrayIndexKey p && decide (keyNumVal p < l.length) then
        Except.ok (JsValue.arr (l.set (keyNumVal p) child2))
      else Except.ok (JsValue.arr l)
  | other => Except.ok other

/-- The inner dot-path walk of extractMultipartVariables (source lines
62 to 74): check each leading segment with the in operator, descending on
success and throwing the interpolated message on failure, then assign the
file value at the last segment. The in-place mutation through the target
alias is rendered as a write-back of the updated child. -/
def assignDotPath (msg : String) (v : JsValue) : JsValue → List String → String → Except JsError JsValue
  | target, [], lastPath => jsSetProp target lastPath v
  | target, p :: rest, lastPath =>
      (jsHasProp target p).bind (fun has =>
        if has then
          (assignDotPath msg v ((jsGetProp target p).getD JsValue.null) rest lastPath).bind
            (fun child2 => jsWriteBack target p child2)
        else Except.error (JsError.error msg))

/-- One iteration of the loop over Object.entries(map): the key must exist
among the uploaded files, then every dot-path of the entry is applied to
the operations wrapper in order. -/
def processEntry (files : List (String × JsValue)) (wrapper : JsValue) (key : String)
    (pathArray : JsValue) : Except JsError JsValue :=
  if filesHas files key then
    (jsIterate pathArray).bind (fun dotPaths =>
      dotPaths.foldlM (fun w dp =>
        (jsSplitDot dp).bind (fun segs =>
          assignDotPath (pathErrMsg (splitLastSeg segs).2) ((filesGet files key).getD JsValue.null)
            w (splitLastSeg segs).2 (splitLastSeg segs).1)) wrapper)
  else Except.error (JsError.error (missingKeyMsg key))

/-- extractMultipartVariables from the source: wrap the vars in an
operations object, apply every map entry in enumeration order (the entries
of the parsed map are supplied in the order Object.entries yields them),
and return the vars slot of the wrapper. A throw escapes as the error
side of the result. -/
def extractMultipartVariables (vars : JsValue) (mapEntries : List (String × JsValue))
    (files : List (String × JsValue)) : Except JsError JsValue :=
  (mapEntries.foldlM (fun w e => processEntry files w e.1 e.2)
      (JsValue.obj [("variables", vars)])).bind
    (fun ops => Except.ok ((jsGetProp ops "variables").getD JsValue.null))

/-- The x || d default of the source (jsonParse(...) || defaultValue). -/
def jsDefault (o : Option JsValue) (d : JsValue) : JsValue :=
  match o with
  | some v => if jsTruthy v then v else d
  | none => d

/-- The POST branch for a JSON body with a truthy query field: query and
vars are destructured from the body and returned unmodified. -/
def postQueryBranch (b : JsValue) : Option GraphQLInput :=
  some (GraphQLInput.mk (jsGetProp b "query") (jsGetProp b "variables"))

/-- The rest-spread of the multipart body: every own entry other than
operations and map is a file attachment. -/
def postFiles (b : JsValue) : List (String × JsValue) :=
  (jsEntries b).filter (fun e => !(e.1 == "operations") && !(e.1 == "map"))

/-- jsonParse(operations) || an empty object. -/
def parsedOperationsOf (b : JsValue) : JsValue :=
  jsDefault (jsonParseJs ((jsGetProp b "operations").getD JsValue.null)) (JsValue.obj [])

/-- jsonParse(map || the empty string) || an empty object. -/
def parsedMapOf (b : JsValue) : JsValue :=
  jsDefault
    (jsonParseJs
      (match jsGetProp b "map" with
       | some m => if jsTruthy m then m else JsValue.str ""
       | none => JsValue.str ""))
    (JsValue.obj [])

/-- The multipart branch of getGraphQLInput: decode operations, bail out
with null when the decoded operations have no truthy query, decode the map
with an empty-object default, and substitute files into the vars when
the decoded operations carry a truthy vars value. -/
def postOperationsBranch (b : JsValue) : Except JsError (Option GraphQLInput) :=
  if jsTruthyOpt (jsGetProp (parsedOperationsOf b) "query") then
    match
      (if jsTruthyOpt (jsGetProp (parsedOperationsOf b) "variables") then
        extractMultipartVariables ((jsGetProp (parsedOperationsOf b) "variables").getD JsValue.null)
          (jsEntries (parsedMapOf b)) (postFiles b)
       else Except.ok (JsValue.obj [])) with
    | Except.ok vars =>
        Except.ok (some (GraphQLInput.mk (jsGetProp (parsedOperationsOf b) "query") (some vars)))
    | Except.error e => Except.error e
  else Except.ok none

/-- getGraphQLInput from the source. The switch over the method is an
if-chain; the POST case falls through to the default null when the body has
neither a truthy query nor a truthy operations field. The error side of the
result is a throw escaping the function. -/
def getGraphQLInput (request : MockedRequest) : Except JsError (Option GraphQLInput) :=
  if request.method == "GET" then
    Except.ok (some (GraphQLInput.mk ((spGet request.searchParams "query").map JsValue.str)
      (jsonParse ((spGet request.searchParams "variables").getD ""))))
  else if request.method == "POST" then
    match request.body with
    | some b =>
        if jsTruthyOpt (jsGetProp b "query") then Except.ok (postQueryBranch b)
        else if jsTruthyOpt (jsGetProp b "operations") then postOperationsBranch b
        else Except.ok none
    | none => Except.ok none
  else Except.ok none

/-- The parsed result of parseGraphQLRequest. -/
structure ParsedGraphQLRequest where
  operationType : Option OperationTypeNode
  operationName : Option String
  vars : Option JsValue

/-- The console.error diagnostic emitted for a GraphQL-shaped request whose
query fails to parse. -/
def mswParseFailureMessage (request : MockedRequest) : String :=
  "[MSW] Failed to intercept a GraphQL request to " ++ dq ++ request.method ++ " "
    ++ getPublicUrlFromRequest request ++ dq
    ++ ": cannot parse query. See the error message from the parser below."

/-- parseGraphQLRequest from the source. The second component of the result
lists the console.error output of the call in order: the descriptive
diagnostic followed by the error value of the parser when the query cannot
be parsed, and nothing otherwise. A null return is modelled as none, and a
throw escaping the function as the error side. -/
def parseGraphQLRequest (request : MockedRequest) :
    Except JsError (Option ParsedGraphQLRequest × List String) :=
  match getGraphQLInput request with
  | Except.error e => Except.error e
  | Except.ok input =>
    match input with
    | none => Except.ok (none, [])
    | some inp =>
      if jsTruthyOpt inp.query then
        match parseQueryJs (inp.query.getD JsValue.null) with
        | Except.error err =>
            Except.ok (none, [mswParseFailureMessage request, err])
        | Except.ok parsedResult =>
            Except.ok (some (ParsedGraphQLRequest.mk parsedResult.operationType
              parsedResult.operationName inp.vars), [])
      else Except.ok (none, [])

/-- Modelled from the spec: a resolver-produced response (ResolvedResponse,
PatchedResponse data model). The Response Patcher implementation is not
present under src/, only its integration test is, so the component is
modelled from the merge rule of the specification. A resolved response may
be partial: status and body are optional. -/
structure ResolvedResponse where
  status : Option Nat
  headers : List (String × String)
  body : Option String

/-- Modelled from the spec: the original network response supplied to the
patcher. -/
structure OriginalResponse where
  status : Nat
  headers : List (String × String)
  body : Option String

/-- Modelled from the spec: the merged response. -/
structure PatchedResponse where
  status : Nat
  headers : List (String × String)
  body : Option String

/-- ASCII lower-casing of a character. -/
def charLower (c : Char) : Char :=
  if 65 ≤ c.toNat && c.toNat ≤ 90 then Char.ofNat (c.toNat + 32) else c

/-- ASCII lower-casing of a string. -/
def lowerStr (s : String) : String := String.mk (s.data.map charLower)

/-- First header value for a name, compared case-insensitively as HTTP
header names are. -/
def headerGet : List (String × String) → String → Option String
  | [], _ => none
  | (k, v) :: rest, n => if lowerStr k == lowerStr n then some v else headerGet rest n

/-- Modelled from the spec: every header present in the resolved response
overwrites the same-named header of the original response, and all other
original headers are preserved. -/
def patchHeaders (original resolved : List (String × String)) : List (String × String) :=
  original.filter (fun p => (headerGet resolved p.1).isNone) ++ resolved

/-- Modelled from the spec: the Response Patcher merge. A body specified by
the resolved response replaces the original body, otherwise the original
body passes through unchanged; headers merge with resolved precedence;
mock fields take precedence, so a resolved status wins when present. -/
def patchResponse (resolved : ResolvedResponse) (original : OriginalResponse) : PatchedResponse :=
  PatchedResponse.mk (resolved.status.getD original.status)
    (patchHeaders original.headers resolved.headers)
    (match resolved.body with
     | some b => some b
     | none => original.body)

/- Concrete requests used by the claim theorems. -/

/-- A multipart body whose map references the file key 0 while no file part
is attached. -/
def multipartMissingKeyBody : JsValue := JsValue.obj
  [("operations", JsValue.str "\x7b\"query\":\"query T\x7bx\x7d\",\"variables\":\x7b\"a\":null\x7d\x7d"),
   ("map", JsValue.str "\x7b\"0\":[\"variables.a\"]\x7d")]

/-- The request carrying multipartMissingKeyBody. -/
def multipartMissingKeyRequest : MockedRequest :=
  MockedRequest.mk "POST" [] "http://localhost/graphql" (some multipartMissingKeyBody)

/-- A multipart body whose first map entry has an uploaded file but a dead
dot-path, and whose second entry references the absent file key b. -/
def pathErrorBody : JsValue := JsValue.obj
  [("operations", JsValue.str "\x7b\"query\":\"query T\x7bx\x7d\",\"variables\":\x7b\x7d\x7d"),
   ("map", JsValue.str "\x7b\"a\":[\"nope.x\"],\"b\":[\"variables.file\"]\x7d"),
   ("a", JsValue.file "fa")]

/-- The request carrying pathErrorBody. -/
def pathErrorRequest : MockedRequest :=
  MockedRequest.mk "POST" [] "http://localhost/graphql" (some pathErrorBody)

/-- The multipart upload example of the specification: operations with a
null file variable, a map sending file key 0 to variables.file, and one
file part keyed 0. -/
def uploadExampleBody : JsValue := JsValue.obj
  [("operations", JsValue.str "\x7b\"query\":\"query Test\x7bx\x7d\",\"variables\":\x7b\"file\":null\x7d\x7d"),
   ("map", JsValue.str "\x7b\"0\":[\"variables.file\"]\x7d"),
   ("0", JsValue.file "f0")]

/-- The request carrying uploadExampleBody. -/
def uploadExampleRequest : MockedRequest :=
  MockedRequest.mk "POST" [] "http://localhost/graphql" (some uploadExampleBody)

/-- A POST body of the form with query and variables fields whose query is
the empty string. -/
def emptyQueryBody : JsValue :=
  JsValue.obj [("query", JsValue.str ""), ("variables", JsValue.obj [("a", JsValue.null)])]

/-- The request carrying emptyQueryBody. -/
def emptyQueryRequest : MockedRequest := MockedRequest.mk "POST" [] "u" (some emptyQueryBody)

/-- A GET request whose query parameter is syntactically invalid GraphQL. -/
def invalidQueryRequest : MockedRequest :=
  MockedRequest.mk "GET" [("query", "query \x7b")] "http://localhost/graphql" none

/-- A multipart body whose decoded operations have a query but no variables
field, while the map references both a missing file key and a dead path. -/
def noVariablesBody : JsValue := JsValue.obj
  [("operations", JsValue.str "\x7b\"query\":\"query T\x7bx\x7d\"\x7d"),
   ("map", JsValue.str "\x7b\"zzz\":[\"nope.q\"]\x7d"),
   ("f", JsValue.file "ff")]

/- Helper lemmas shared by the claim theorems. -/

/-- Monadic bind of Except on a success, stated for the Bind projection the
do-notation elaborates to. -/
theorem exceptBindOk {ε α β : Type} (a : α) (g : α → Except ε β) :
    (bind (Except.ok a) g : Except ε β) = g a := rfl

/-- Monadic bind of Except on an error. -/
theorem exceptBindErr {ε α β : Type} (e : ε) (g : α → Except ε β) :
    (bind (Except.error e) g : Except ε β) = Except.error e := rfl

/-- foldlM over Except distributes over list append. -/
theorem exceptFoldlM_append {α β ε : Type} (f : β → α → Except ε β) (l1 l2 : List α) (b : β) :
    (l1 ++ l2).foldlM f b =
      (match l1.foldlM f b with
       | Except.error e => Except.error e
       | Except.ok b2 => l2.foldlM f b2) := by
  induction l1 generalizing b with
  | nil => rfl
  | cons a l1 ih =>
      simp only [List.cons_append, List.foldlM_cons]
      cases h : f b a with
      | error e => simp [h, exceptBindErr]
      | ok b2 => simp [h, exceptBindOk, ih]

/-- find? returns the marked element when everything before it fails the
predicate and it satisfies it. -/
theorem find?_append_first {α : Type} (p : α → Bool) (pre post : List α) (x : α)
    (hpre : ∀ a ∈ pre, p a = false) (hx : p x = true) :
    (pre ++ x :: post).find? p = some x := by
  induction pre with
  | nil => simp [List.find?, hx]
  | cons a pre ih =>
      have ha : p a = false := hpre a (List.mem_cons_self a pre)
      simp only [List.cons_append, List.find?, ha]
      exact ih (fun b hb => hpre b (List.mem_cons_of_mem a hb))

/-- find? fails on a list where every element fails the predicate. -/
theorem find?_none {α : Type} (p : α → Bool) (l : List α)
    (h : ∀ a ∈ l, p a = false) : l.find? p = none := by
  induction l with
  | nil => rfl
  | cons a l ih =>
      have ha : p a = false := h a (List.mem_cons_self a l)
      simp only [List.find?, ha]
      exact ih (fun b hb => h b (List.mem_cons_of_mem a hb))

/-- Reading back the key just written on an association list. -/
theorem objGet_objSet_self (fs : List (String × JsValue)) (k : String) (v : JsValue) :
    objGet (objSet fs k v) k = some v := by
  induction fs with
  | nil => simp [objSet, objGet]
  | cons e rest ih =>
      obtain ⟨k2, v2⟩ := e
      cases h : (k2 == k) with
      | true => simp [objSet, h, objGet]
      | false => simp [objSet, h, objGet, ih]

/- Claim theorems. -/

/-- C4: for the multipart POST body with operations text
carrying query Test and a null file variable, map text sending file key 0
to variables.file, and a file part keyed 0, extraction returns the query
text together with a variables object in which file is set to that file
value; there are no other variable entries and none are altered. -/
theorem getGraphQLInput_multipart_file_substitution_example :
    getGraphQLInput uploadExampleRequest =
      Except.ok (some (GraphQLInput.mk (some (JsValue.str "query Test\x7bx\x7d"))
        (some (JsValue.obj [("file", JsValue.file "f0")])))) := rfl

/-- C1 counterexample: a multipart request whose map references the file
key 0 with no such file part makes parseGraphQLRequest throw (the error
side of the embedding), so the failure is not surfaced as a returned
value. -/
theorem parseGraphQLRequest_missing_file_key_throws :
    parseGraphQLRequest multipartMissingKeyRequest =
      Except.error (JsError.error (missingKeyMsg "0")) := rfl

/-- C2 counterexample: in pathErrorRequest the map entry keyed b references
a file key absent from the uploaded parts, yet extraction fails with the
dead-path error of the earlier entry keyed a, an error that does not
identify the key b: the map lists keys a and b, no file part b exists, and
the thrown message is the path error, not the missing-key error for b. -/
theorem parseGraphQLRequest_error_not_naming_absent_key :
    parseGraphQLRequest pathErrorRequest = Except.error (JsError.error (pathErrMsg ["nope"]))
    ∧ (jsEntries (parsedMapOf pathErrorBody)).map Prod.fst = ["a", "b"]
    ∧ filesHas (postFiles pathErrorBody) "b" = false
    ∧ JsError.error (pathErrMsg ["nope"]) ≠ JsError.error (missingKeyMsg "b") := by
  refine ⟨rfl, rfl, rfl, ?_⟩
  intro h
  injection h with h2
  exact absurd h2 (by decide)

/-- C5 counterexample: a POST body of the form with query and variables
fields whose query is the empty string is not returned by extraction;
getGraphQLInput yields null instead of that query and variables pair. -/
theorem getGraphQLInput_post_empty_query_not_returned :
    getGraphQLInput emptyQueryRequest = Except.ok none
    ∧ (Except.ok none : Except JsError (Option GraphQLInput)) ≠
        Except.ok (some (GraphQLInput.mk (some (JsValue.str ""))
          (some (JsValue.obj [("a", JsValue.null)])))) := by
  refine ⟨rfl, ?_⟩
  intro h
  injection h with h2
  exact Option.noConfusion h2

/-- C1 amended: a throw escapes parseGraphQLRequest only from the multipart
branch: whenever the call ends in an exception, the request was a POST whose
body had a falsy query field and a truthy operations field. For every other
shape (GET, POST with a truthy query, non-GraphQL shapes, invalid query
syntax) every failure mode is surfaced as a returned value. -/
theorem parseGraphQLRequest_error_only_from_multipart :
    ∀ (r : MockedRequest) (e : JsError), parseGraphQLRequest r = Except.error e →
      r.method = "POST"
      ∧ jsTruthyOpt (r.body.bind (fun b => jsGetProp b "query")) = false
      ∧ jsTruthyOpt (r.body.bind (fun b => jsGetProp b "operations")) = true := by
  intro r e h
  unfold parseGraphQLRequest at h
  cases hg : getGraphQLInput r with
  | ok input =>
      rw [hg] at h
      cases input with
      | none => simp at h
      | some inp =>
          by_cases hq : jsTruthyOpt inp.query = true
          · cases hp : parseQueryJs (inp.query.getD JsValue.null) with
            | ok p => simp [hq, hp] at h
            | error err => simp [hq, hp] at h
          · simp [hq] at h
  | error e2 =>
      rw [hg] at h
      unfold getGraphQLInput at hg
      by_cases hm : (r.method == "GET") = true
      · rw [if_pos hm] at hg; simp at hg
      · rw [if_neg hm] at hg
        by_cases hp : (r.method == "POST") = true
        · rw [if_pos hp] at hg
          cases hb : r.body with
          | none => rw [hb] at hg; simp at hg
          | some b =>
              rw [hb] at hg
              by_cases hq : jsTruthyOpt (jsGetProp b "query") = true
              · simp [hq] at hg
              · by_cases ho : jsTruthyOpt (jsGetProp b "operations") = true
                · have hq2 : jsTruthyOpt (jsGetProp b "query") = false := by
                    simpa using hq
                  exact ⟨eq_of_beq hp, hq2, ho⟩
                · simp [hq, ho] at hg
        · rw [if_neg hp] at hg; simp at hg

/-- C1 amended, witness: the missing-file-key request instantiates the
theorem, and its escaping throw indeed comes from the multipart branch. -/
theorem parseGraphQLRequest_error_only_from_multipart_witness :
    multipartMissingKeyRequest.method = "POST"
    ∧ jsTruthyOpt (multipartMissingKeyRequest.body.bind (fun b => jsGetProp b "query")) = false
    ∧ jsTruthyOpt (multipartMissingKeyRequest.body.bind (fun b => jsGetProp b "operations")) = true :=
  parseGraphQLRequest_error_only_from_multipart multipartMissingKeyRequest
    (JsError.error (missingKeyMsg "0")) rfl

/-- C5 amended: for every POST request whose JSON body carries a truthy
query field (in particular any non-empty query string), extraction returns
exactly that query and that variables value, unmodified. -/
theorem getGraphQLInput_post_truthy_query_exact :
    ∀ (sp : List (String × String)) (u : String) (b : JsValue),
      jsTruthyOpt (jsGetProp b "query") = true →
      getGraphQLInput (MockedRequest.mk "POST" sp u (some b)) =
        Except.ok (some (GraphQLInput.mk (jsGetProp b "query") (jsGetProp b "variables"))) := by
  intro sp u b hq
  have h1 : getGraphQLInput (MockedRequest.mk "POST" sp u (some b)) =
      (if jsTruthyOpt (jsGetProp b "query") then Except.ok (postQueryBranch b)
       else if jsTruthyOpt (jsGetProp b "operations") then postOperationsBranch b
       else Except.ok none) := rfl
  rw [h1, if_pos hq]
  rfl

/-- C5 amended, witness at a concrete body holding a query string and a
null variables value. -/
theorem getGraphQLInput_post_truthy_query_exact_witness :
    getGraphQLInput (MockedRequest.mk "POST" [] "u"
        (some (JsValue.obj [("query", JsValue.str "q"), ("variables", JsValue.null)]))) =
      Except.ok (some (GraphQLInput.mk (some (JsValue.str "q")) (some JsValue.null))) :=
  getGraphQLInput_post_truthy_query_exact [] "u"
    (JsValue.obj [("query", JsValue.str "q"), ("variables", JsValue.null)]) rfl

/-- C9: a request whose extracted query text is the empty string produces
exactly the output of a non-GraphQL-shaped request, the null result with no
diagnostics, and a POST body with an empty query field falls through to the
multipart operations branch of the extractor. -/
theorem parseGraphQLRequest_empty_query_null :
    (∀ r : MockedRequest, getGraphQLInput r = Except.ok none →
      parseGraphQLRequest r = Except.ok (none, []))
    ∧ (∀ (r : MockedRequest) (inp : GraphQLInput),
        getGraphQLInput r = Except.ok (some inp) →
        inp.query = some (JsValue.str "") →
        parseGraphQLRequest r = Except.ok (none, []))
    ∧ (∀ (sp : List (String × String)) (u : String) (b : JsValue),
        jsGetProp b "query" = some (JsValue.str "") →
        getGraphQLInput (MockedRequest.mk "POST" sp u (some b)) =
          (if jsTruthyOpt (jsGetProp b "operations") then postOperationsBranch b
           else Except.ok none)) := by
  refine ⟨?_, ?_, ?_⟩
  · intro r h
    unfold parseGraphQLRequest
    rw [h]
  · intro r inp h hq
    unfold parseGraphQLRequest
    rw [h]
    have hf : jsTruthyOpt inp.query = false := by rw [hq]; rfl
    simp [hf]
  · intro sp u b hq
    have h1 : getGraphQLInput (MockedRequest.mk "POST" sp u (some b)) =
        (if jsTruthyOpt (jsGetProp b "query") then Except.ok (postQueryBranch b)
         else if jsTruthyOpt (jsGetProp b "operations") then postOperationsBranch b
         else Except.ok none) := rfl
    rw [h1, hq]
    rfl

/-- C9 witness: a PUT request, a GET request with an empty query parameter,
and a POST body with an empty query field and an operations field each
instantiate the corresponding conjunct. -/
theorem parseGraphQLRequest_empty_query_null_witness :
    parseGraphQLRequest (MockedRequest.mk "PUT" [] "u" none) = Except.ok (none, [])
    ∧ parseGraphQLRequest (MockedRequest.mk "GET" [("query", "")] "u" none) = Except.ok (none, [])
    ∧ getGraphQLInput (MockedRequest.mk "POST" [] "u"
          (some (JsValue.obj [("query", JsValue.str ""), ("operations", JsValue.str "x")]))) =
        (if jsTruthyOpt (jsGetProp (JsValue.obj [("query", JsValue.str ""), ("operations", JsValue.str "x")]) "operations")
         then postOperationsBranch (JsValue.obj [("query", JsValue.str ""), ("operations", JsValue.str "x")])
         else Except.ok none) :=
  ⟨parseGraphQLRequest_empty_query_null.1 (MockedRequest.mk "PUT" [] "u" none) rfl,
   parseGraphQLRequest_empty_query_null.2.1 (MockedRequest.mk "GET" [("query", "")] "u" none)
     (GraphQLInput.mk (some (JsValue.str "")) none) rfl rfl,
   parseGraphQLRequest_empty_query_null.2.2 [] "u"
     (JsValue.obj [("query", JsValue.str ""), ("operations", JsValue.str "x")]) rfl⟩

/-- C10: for every multipart POST body whose decoded operations have a
truthy query and no variables field, extraction returns that query with an
empty variables object, for every map and file content whatsoever: the map
is never validated, so entries referencing missing file keys or missing
dot-path segments raise no error. -/
theorem getGraphQLInput_multipart_no_variables_skips_map :
    ∀ (sp : List (String × String)) (u : String) (b : JsValue),
      jsTruthyOpt (jsGetProp b "query") = false →
      jsTruthyOpt (jsGetProp b "operations") = true →
      jsTruthyOpt (jsGetProp (parsedOperationsOf b) "query") = true →
      jsGetProp (parsedOperationsOf b) "variables" = none →
      getGraphQLInput (MockedRequest.mk "POST" sp u (some b)) =
        Except.ok (some (GraphQLInput.mk (jsGetProp (parsedOperationsOf b) "query")
          (some (JsValue.obj [])))) := by
  intro sp u b hq ho hpq hv
  have h1 : getGraphQLInput (MockedRequest.mk "POST" sp u (some b)) =
      (if jsTruthyOpt (jsGetProp b "query") then Except.ok (postQueryBranch b)
       else if jsTruthyOpt (jsGetProp b "operations") then postOperationsBranch b
       else Except.ok none) := rfl
  rw [h1, hq, ho]
  show postOperationsBranch b = _
  unfold postOperationsBranch
  rw [if_pos hpq, hv]
  rfl

/-- C10 witness: the body whose operations text has a query and no
variables, while the map references a missing file key and a dead path. -/
theorem getGraphQLInput_multipart_no_variables_skips_map_witness :
    getGraphQLInput (MockedRequest.mk "POST" [] "u" (some noVariablesBody)) =
      Except.ok (some (GraphQLInput.mk (some (JsValue.str "query T\x7bx\x7d"))
        (some (JsValue.obj [])))) :=
  getGraphQLInput_multipart_no_variables_skips_map [] "u" noVariablesBody rfl rfl rfl rfl

/-- C2 amended: for every multipart extraction whose map contains an entry
whose key fails the in-operator check against the files object (no uploaded
part of that name and no name inherited from Object.prototype), extraction
fails whenever processing reaches that entry: if every earlier map entry
processes without error, the result is exactly the error naming that key,
and no variables value is returned (the result carries no partially
substituted variables object). When an earlier entry fails first,
extraction still fails, but with the earlier error. The check searches the
prototype chain, so an entry keyed by an inherited name such as toString is
not a failure at all: the second conjunct shows such an entry processing to
completion with the inherited built-in substituted into the variables. -/
theorem extractMultipartVariables_missing_key_error :
    (∀ (vars : JsValue) (files pre post : List (String × JsValue)) (k : String)
      (pa : JsValue) (w : JsValue),
      pre.foldlM (fun acc e => processEntry files acc e.1 e.2)
          (JsValue.obj [("variables", vars)]) = Except.ok w →
      filesHas files k = false →
      extractMultipartVariables vars (pre ++ (k, pa) :: post) files =
        Except.error (JsError.error (missingKeyMsg k)))
    ∧ extractMultipartVariables (JsValue.obj [("x", JsValue.null)])
        [("toString", JsValue.arr [JsValue.str "variables.x"])] [] =
        Except.ok (JsValue.obj [("x", JsValue.builtin "toString")]) := by
  constructor
  · intro vars files pre post k pa w hpre hk
    unfold extractMultipartVariables
    rw [exceptFoldlM_append, hpre]
    simp only [List.foldlM_cons]
    unfold processEntry
    rw [hk]
    rfl
  · rfl

/-- C2 amended, witness: a single-entry map whose key 0 has no file, the
key 0 naming nothing on the prototype chain either. -/
theorem extractMultipartVariables_missing_key_error_witness :
    extractMultipartVariables JsValue.null [("0", JsValue.null)] [] =
      Except.error (JsError.error (missingKeyMsg "0")) :=
  extractMultipartVariables_missing_key_error.1 JsValue.null [] [] [] "0" JsValue.null
    (JsValue.obj [("variables", JsValue.null)]) rfl rfl

/-- C6: for every GraphQL-shaped request whose query text fails to parse,
parseGraphQLRequest returns the null non-match value, and its console.error
output is exactly one diagnostic naming the method and public URL followed
by the error value of the parser, and nothing else. -/
theorem parseGraphQLRequest_parse_failure_logs_and_null :
    ∀ (r : MockedRequest) (inp : GraphQLInput) (err : String),
      getGraphQLInput r = Except.ok (some inp) →
      jsTruthyOpt inp.query = true →
      parseQueryJs (inp.query.getD JsValue.null) = Except.error err →
      parseGraphQLRequest r = Except.ok (none, [mswParseFailureMessage r, err]) := by
  intro r inp err hg hq hp
  unfold parseGraphQLRequest
  rw [hg]
  simp [hq, hp]

/-- C6 witness: a GET request whose query parameter is an unterminated
selection set. -/
theorem parseGraphQLRequest_parse_failure_logs_and_null_witness :
    parseGraphQLRequest invalidQueryRequest =
      Except.ok (none, [mswParseFailureMessage invalidQueryRequest,
        "Syntax Error: Unexpected token."]) :=
  parseGraphQLRequest_parse_failure_logs_and_null invalidQueryRequest
    (GraphQLInput.mk (some (JsValue.str "query \x7b")) none)
    "Syntax Error: Unexpected token." rfl rfl rfl

/-- Pure traversal of nested objects along a segment list, following the
walk of the extractor: every visited node must be an object and every
segment must be present. -/
def objWalk : JsValue → List String → Option JsValue
  | t, [] => some t
  | JsValue.obj fs, p :: rest =>
      (match objGet fs p with
       | some c => objWalk c rest
       | none => none)
  | _, _ => none

/-- Step of the dot-path walk through an object holding the segment as an
own key. -/
theorem assignDotPath_cons_step (msg : String) (v : JsValue) (p : String) (rest : List String)
    (lastPath : String) (fs : List (String × JsValue)) (c : JsValue)
    (hc : objGet fs p = some c) :
    assignDotPath msg v (JsValue.obj fs) (p :: rest) lastPath =
      (assignDotPath msg v c rest lastPath).bind
        (fun child2 => jsWriteBack (JsValue.obj fs) p child2) := by
  simp [assignDotPath, jsHasProp, jsGetProp, hc, Except.bind]

/-- Step of the dot-path walk at a node where the in operator answers
false, searching the whole prototype chain: the source throws the
interpolated message. -/
theorem assignDotPath_cons_miss (msg : String) (v : JsValue) (p : String) (rest : List String)
    (lastPath : String) (target : JsValue)
    (hc : jsHasProp target p = Except.ok false) :
    assignDotPath msg v target (p :: rest) lastPath =
      Except.error (JsError.error msg) := by
  simp [assignDotPath, hc, Except.bind]

/-- A dot-path assignment fails with the supplied message exactly when the
walk reaches a node lacking the next segment. -/
theorem assignDotPath_missing (msg : String) (v : JsValue) :
    ∀ (pre : List String) (target : JsValue) (m : String) (rest : List String)
      (lastPath : String) (node : JsValue),
      objWalk target pre = some node →
      jsHasProp node m = Except.ok false →
      assignDotPath msg v target (pre ++ m :: rest) lastPath =
        Except.error (JsError.error msg) := by
  intro pre
  induction pre with
  | nil =>
      intro target m rest lastPath node h1 h2
      have ht : target = node := by simpa [objWalk] using h1
      rw [List.nil_append, ht]
      exact assignDotPath_cons_miss msg v m rest lastPath node h2
  | cons p pre ih =>
      intro target m rest lastPath node h1 h2
      cases target with
      | obj fs =>
          cases hc : objGet fs p with
          | none => simp [objWalk, hc] at h1
          | some c =>
              have h1' : objWalk c pre = some node := by simpa [objWalk, hc] using h1
              have hstep := ih c m rest lastPath node h1' h2
              rw [List.cons_append, assignDotPath_cons_step msg v p (pre ++ m :: rest) lastPath fs c hc, hstep]
              rfl
      | null => simp [objWalk] at h1
      | bool b => simp [objWalk] at h1
      | num n => simp [objWalk] at h1
      | str s => simp [objWalk] at h1
      | file t => simp [objWalk] at h1
      | arr l => simp [objWalk] at h1
      | builtin nm => simp [objWalk] at h1

/-- A dot-path assignment over a walkable all-object path succeeds and
stores the value at the last segment of the final object, the rest of the
walked path staying intact. -/
theorem assignDotPath_success (msg : String) (v : JsValue) :
    ∀ (paths : List String) (target : JsValue) (lastPath : String)
      (fs : List (String × JsValue)),
      objWalk target paths = some (JsValue.obj fs) →
      ∃ t2, assignDotPath msg v target paths lastPath = Except.ok t2
        ∧ objWalk t2 paths = some (JsValue.obj (objSet fs lastPath v)) := by
  intro paths
  induction paths with
  | nil =>
      intro target lastPath fs h
      have ht : target = JsValue.obj fs := by simpa [objWalk] using h
      subst ht
      exact ⟨JsValue.obj (objSet fs lastPath v), rfl, rfl⟩
  | cons p paths ih =>
      intro target lastPath fs h
      cases target with
      | obj gs =>
          cases hc : objGet gs p with
          | none => simp [objWalk, hc] at h
          | some c =>
              have h' : objWalk c paths = some (JsValue.obj fs) := by
                simpa [objWalk, hc] using h
              obtain ⟨c2, ha, hw⟩ := ih c lastPath fs h'
              refine ⟨JsValue.obj (objSet gs p c2), ?_, ?_⟩
              · rw [assignDotPath_cons_step msg v p paths lastPath gs c hc, ha]
                simp [jsWriteBack, hc, Except.bind]
              · simp [objWalk, objGet_objSet_self, hw]
      | null => simp [objWalk] at h
      | bool b => simp [objWalk] at h
      | num n => simp [objWalk] at h
      | str s => simp [objWalk] at h
      | file t => simp [objWalk] at h
      | arr l => simp [objWalk] at h
      | builtin nm => simp [objWalk] at h

/-- C3: during multipart substitution of one dot-path, when the walk from
the wrapper reaches a node where the in operator answers false for the next
non-last segment (the operator searches the prototype chain, so the
hypothesis excludes both own keys and inherited names such as toString),
the assignment fails with exactly the message interpolating the non-last
segment list, a list the missing segment belongs to; and when every
non-last segment exists as an own key of a nested object, the file value is
assigned at the last segment of the final object, overwriting any existing
value there. -/
theorem assignDotPath_segment_check_and_assign :
    (∀ (v target : JsValue) (pre : List String) (m : String) (rest : List String)
      (lastPath : String) (node : JsValue),
      objWalk target pre = some node →
      jsHasProp node m = Except.ok false →
      assignDotPath (pathErrMsg (pre ++ m :: rest)) v target (pre ++ m :: rest) lastPath =
        Except.error (JsError.error (pathErrMsg (pre ++ m :: rest)))
      ∧ m ∈ pre ++ m :: rest)
    ∧ (∀ (v target : JsValue) (paths : List String) (lastPath : String)
      (fs : List (String × JsValue)),
      objWalk target paths = some (JsValue.obj fs) →
      ∃ t2, assignDotPath (pathErrMsg paths) v target paths lastPath = Except.ok t2
        ∧ objWalk t2 paths = some (JsValue.obj (objSet fs lastPath v))
        ∧ objGet (objSet fs lastPath v) lastPath = some v) := by
  constructor
  · intro v target pre m rest lastPath node h1 h2
    refine ⟨assignDotPath_missing (pathErrMsg (pre ++ m :: rest)) v pre target m rest lastPath node h1 h2, ?_⟩
    exact List.mem_append_right pre (List.mem_cons_self m rest)
  · intro v target paths lastPath fs h
    obtain ⟨t2, ha, hw⟩ := assignDotPath_success (pathErrMsg paths) v paths target lastPath fs h
    exact ⟨t2, ha, hw, objGet_objSet_self fs lastPath v⟩

/-- C3 witness: the failing conjunct at a wrapper whose variables object
lacks the segment file, and the succeeding conjunct at a one-segment path
into an object holding a null slot. -/
theorem assignDotPath_segment_check_and_assign_witness :
    (assignDotPath (pathErrMsg ["variables", "file"]) (JsValue.file "w")
        (JsValue.obj [("variables", JsValue.obj [])]) ["variables", "file"] "x" =
        Except.error (JsError.error (pathErrMsg ["variables", "file"]))
      ∧ "file" ∈ ["variables", "file"])
    ∧ (∃ t2, assignDotPath (pathErrMsg ["a"]) (JsValue.file "w")
        (JsValue.obj [("a", JsValue.obj [("b", JsValue.null)])]) ["a"] "b" = Except.ok t2
      ∧ objWalk t2 ["a"] = some (JsValue.obj (objSet [("b", JsValue.null)] "b" (JsValue.file "w")))
      ∧ objGet (objSet [("b", JsValue.null)] "b" (JsValue.file "w")) "b" = some (JsValue.file "w")) :=
  ⟨assignDotPath_segment_check_and_assign.1 (JsValue.file "w")
      (JsValue.obj [("variables", JsValue.obj [])]) ["variables"] "file" [] "x"
      (JsValue.obj []) rfl rfl,
   assignDotPath_segment_check_and_assign.2 (JsValue.file "w")
      (JsValue.obj [("a", JsValue.obj [("b", JsValue.null)])]) ["a"] "b"
      [("b", JsValue.null)] rfl⟩

/-- C7: parseQuery takes the operation type and name from the first
top-level operation definition of the parsed document; classifying a named
mutation yields the mutation kind and that name, classifying the anonymous
selection-set shorthand yields the query kind with no name, and a document
with zero operation definitions yields no operation type without an
error. -/
theorem parseQuery_first_operation_classification :
    (∀ (q : String) (doc : DocumentNode) (t : OperationTypeNode) (nm : Option String)
      (pre post : List DefinitionNode),
      gqlParse q = Except.ok doc →
      doc.definitions = pre ++ DefinitionNode.operationDefinition t nm :: post →
      (∀ d ∈ pre, isOperationDefinition d = false) →
      parseQuery q = Except.ok (ParsedGraphQLQuery.mk (some t) nm))
    ∧ (∀ (q : String) (doc : DocumentNode),
      gqlParse q = Except.ok doc →
      (∀ d ∈ doc.definitions, isOperationDefinition d = false) →
      parseQuery q = Except.ok (ParsedGraphQLQuery.mk none none))
    ∧ parseQuery "mutation CreatePost \x7b createPost \x7d" =
        Except.ok (ParsedGraphQLQuery.mk (some OperationTypeNode.mutation) (some "CreatePost"))
    ∧ parseQuery "\x7b __typename \x7d" =
        Except.ok (ParsedGraphQLQuery.mk (some OperationTypeNode.query) none)
    ∧ parseQuery "fragment F on T \x7b x \x7d" =
        Except.ok (ParsedGraphQLQuery.mk none none) := by
  refine ⟨?_, ?_, rfl, rfl, rfl⟩
  · intro q doc t nm pre post hq hdefs hpre
    have hpq : parseQuery q = Except.ok (ParsedGraphQLQuery.mk
        ((doc.definitions.find? isOperationDefinition).bind defOperation)
        ((doc.definitions.find? isOperationDefinition).bind defNameValue)) := by
      unfold parseQuery
      rw [hq]
    rw [hpq, hdefs, find?_append_first isOperationDefinition pre post
      (DefinitionNode.operationDefinition t nm) hpre rfl]
    rfl
  · intro q doc hq hall
    have hpq : parseQuery q = Except.ok (ParsedGraphQLQuery.mk
        ((doc.definitions.find? isOperationDefinition).bind defOperation)
        ((doc.definitions.find? isOperationDefinition).bind defNameValue)) := by
      unfold parseQuery
      rw [hq]
    rw [hpq, find?_none isOperationDefinition doc.definitions hall]
    rfl

/-- C7 witness: the first conjunct at a single named query definition and
the second at a document holding one fragment definition. -/
theorem parseQuery_first_operation_classification_witness :
    parseQuery "query A \x7b x \x7d" =
      Except.ok (ParsedGraphQLQuery.mk (some OperationTypeNode.query) (some "A"))
    ∧ parseQuery "fragment G on T \x7b y \x7d" =
      Except.ok (ParsedGraphQLQuery.mk none none) :=
  ⟨parseQuery_first_operation_classification.1 "query A \x7b x \x7d"
      (DocumentNode.mk [DefinitionNode.operationDefinition OperationTypeNode.query (some "A")])
      OperationTypeNode.query (some "A") [] [] rfl rfl (fun d hd => absurd hd (by simp)),
   parseQuery_first_operation_classification.2.1 "fragment G on T \x7b y \x7d"
      (DocumentNode.mk [DefinitionNode.fragmentDefinition "G"]) rfl
      (fun d hd => by
        rcases List.mem_singleton.mp hd with h
        rw [h]; rfl)⟩

/-- Header lookup distributes over append. -/
theorem headerGet_append (l1 l2 : List (String × String)) (n : String) :
    headerGet (l1 ++ l2) n =
      (match headerGet l1 n with
       | some v => some v
       | none => headerGet l2 n) := by
  induction l1 with
  | nil => rfl
  | cons e rest ih =>
      obtain ⟨k, v⟩ := e
      cases hk : (lowerStr k == lowerStr n) with
      | true => simp [headerGet, hk]
      | false => simp [headerGet, hk, ih]

/-- Header lookup only depends on the lower-cased name. -/
theorem headerGet_congr (hs : List (String × String)) (a b : String)
    (h : lowerStr a = lowerStr b) : headerGet hs a = headerGet hs b := by
  induction hs with
  | nil => rfl
  | cons e rest ih =>
      obtain ⟨k, v⟩ := e
      simp [headerGet, h, ih]

/-- Lookup through the filter step of the patch: names present in the
resolved headers are dropped from the original list, the rest stay. -/
theorem headerGet_filter (orig res : List (String × String)) (n : String) :
    headerGet (orig.filter (fun p => (headerGet res p.1).isNone)) n =
      (match headerGet res n with
       | some _ => (none : Option String)
       | none => headerGet orig n) := by
  induction orig with
  | nil => cases h : headerGet res n <;> simp [headerGet]
  | cons e rest ih =>
      obtain ⟨k, v⟩ := e
      cases hk : headerGet res k with
      | none =>
          cases hkn : (lowerStr k == lowerStr n) with
          | true =>
              have hcg : headerGet res n = none := by
                rw [← headerGet_congr res k n (eq_of_beq hkn)]
                exact hk
              simp [List.filter, hk, headerGet, hkn, hcg]
          | false =>
              cases hres : headerGet res n with
              | some w => simp [List.filter, hk, headerGet, hkn, ih, hres]
              | none => simp [List.filter, hk, headerGet, hkn, ih, hres]
      | some w =>
          cases hkn : (lowerStr k == lowerStr n) with
          | true =>
              have hcg : headerGet res n = some w := by
                rw [← headerGet_congr res k n (eq_of_beq hkn)]
                exact hk
              simp [List.filter, hk, headerGet, hkn, ih, hcg]
          | false =>
              cases hres : headerGet res n with
              | some w2 => simp [List.filter, hk, headerGet, ih, hres]
              | none => simp [List.filter, hk, headerGet, hkn, ih, hres]

/-- C8: for every resolved and original response pair, the patched body is
the resolved body when one is specified and the original body unchanged
otherwise, and every header name answers with the resolved value when the
resolved response carries the name and with the original value otherwise,
so resolved headers overwrite same-named originals and all other original
headers are preserved. -/
theorem patchResponse_body_and_header_merge :
    ∀ (resolved : ResolvedResponse) (original : OriginalResponse) (n : String),
      (resolved.body.isSome = true → (patchResponse resolved original).body = resolved.body)
      ∧ (resolved.body = none → (patchResponse resolved original).body = original.body)
      ∧ headerGet (patchResponse resolved original).headers n =
          (match headerGet resolved.headers n with
           | some v => some v
           | none => headerGet original.headers n) := by
  intro resolved original n
  refine ⟨?_, ?_, ?_⟩
  · intro h
    cases hb : resolved.body with
    | none => rw [hb] at h; simp at h
    | some b => simp [patchResponse, hb]
  · intro h
    simp [patchResponse, h]
  · show headerGet (patchHeaders original.headers resolved.headers) n = _
    unfold patchHeaders
    rw [headerGet_append, headerGet_filter]
    cases hres : headerGet resolved.headers n <;>
      cases horig : headerGet original.headers n <;> simp [hres, horig]

/-- C8 witness: the patch scenario of the specification, with the resolved
response specifying a body and one header and the original response
carrying another header and another body. -/
theorem patchResponse_body_and_header_merge_witness :
    (patchResponse (ResolvedResponse.mk (some 200) [("x-custom", "A")] (some "id101"))
        (OriginalResponse.mk 200 [("x-powered-by", "orig")] (some "other"))).body = some "id101"
    ∧ headerGet (patchResponse (ResolvedResponse.mk (some 200) [("x-custom", "A")] (some "id101"))
        (OriginalResponse.mk 200 [("x-powered-by", "orig")] (some "other"))).headers "x-custom" = some "A"
    ∧ headerGet (patchResponse (ResolvedResponse.mk (some 200) [("x-custom", "A")] (some "id101"))
        (OriginalResponse.mk 200 [("x-powered-by", "orig")] (some "other"))).headers "x-powered-by" = some "orig" :=
  ⟨(patchResponse_body_and_header_merge
      (ResolvedResponse.mk (some 200) [("x-custom", "A")] (some "id101"))
      (OriginalResponse.mk 200 [("x-powered-by", "orig")] (some "other")) "x-custom").1 rfl,
   ((patchResponse_body_and_header_merge
      (ResolvedResponse.mk (some 200) [("x-custom", "A")] (some "id101"))
      (OriginalResponse.mk 200 [("x-powered-by", "orig")] (some "other")) "x-custom").2.2).trans rfl,
   ((patchResponse_body_and_header_merge
      (ResolvedResponse.mk (some 200) [("x-custom", "A")] (some "id101"))
      (OriginalResponse.mk 200 [("x-powered-by", "orig")] (some "other")) "x-powered-by").2.2).trans rfl⟩

end Msw
